import Mathlib

/-!
Formal model of the session-synchronization core of the NExS spreadsheet
MCP server (`server.ts`).

The JavaScript `Map` used for the cell cache is modelled as an
insertion-ordered association list: `mapSet` updates an existing key in
place (keeping its position) and appends a new key at the end, matching
JS `Map` iteration semantics, on which `get_cell`'s sheetless scan and
the known-sheet listing depend.  Network calls (`nexsInit`,
`nexsInteract`) are modelled by oracle parameters of type
`Except Unit _`: `.ok r` means the HTTP call succeeded with response `r`,
`.error ()` means it threw.  Cell addresses are ASCII, so JS
`toUpperCase()` is modelled by mapping `Char.toUpper` over the string.
-/

/-- Raw cell value: JS `number | string` (`data` field of a cell). -/
inductive Value
  | num (n : Int)
  | str (s : String)
deriving DecidableEq

/-- The `datatype` field: `"numeric" | "string" | "error" | "n/a"`. -/
inductive Datatype
  | numeric
  | stringTy
  | errorTy
  | na
deriving DecidableEq

/-- `NexsCellInfo` from server.ts: `{ addr, data, datatype, text, formula? }`. -/
structure NexsCellInfo where
  addr : String
  data : Value
  datatype : Datatype
  text : String
  formula : Option String
deriving DecidableEq

/-- `NexsCellEntry = [sheetname, cellinfo]` tuple. -/
abbrev NexsCellEntry := String × NexsCellInfo

/-- `NexsView` from server.ts. -/
structure NexsView where
  name : String
  sheetName : String
  range : String
  isInvisible : Bool
deriving DecidableEq

/-- A value stored in the cell cache: `{ sheetName, ci }`. -/
structure CacheEntry where
  sheetName : String
  ci : NexsCellInfo
deriving DecidableEq

/-- The cell cache: a JS `Map<string, CacheEntry>` as an insertion-ordered
association list. -/
abbrev CellCache := List (String × CacheEntry)

/-- Models JS `s.toUpperCase()` on ASCII strings. -/
def upperStr (s : String) : String := String.mk (s.toList.map Char.toUpper)

/-- The cache key `` `${sn}!${ci.addr.toUpperCase()}` ``. -/
def cacheKey (sn : String) (ci : NexsCellInfo) : String := sn ++ "!" ++ upperStr ci.addr

/-- JS `map.has(k)`. -/
def mapHas (m : CellCache) (k : String) : Bool := m.any (fun p => p.1 == k)

/-- JS `map.get(k)`. -/
def mapGet (m : CellCache) (k : String) : Option CacheEntry :=
  (m.find? (fun p => p.1 == k)).map (fun p => p.2)

/-- JS `map.set(k, v)`: update in place if the key exists (keeping its
insertion position), else append at the end. -/
def mapSet (m : CellCache) (k : String) (v : CacheEntry) : CellCache :=
  if mapHas m k then m.map (fun p => if p.1 == k then (k, v) else p) else m ++ [(k, v)]

/-- The session object of server.ts. -/
structure NexsSession where
  appUuid : String
  sessionId : String
  revision : Int
  views : List NexsView
  cellCache : CellCache
  fromBrowser : Bool
deriving DecidableEq

/-- `NexsInitResult`: response of `POST /api/app/{uuid}/init`. -/
structure NexsInitResult where
  sessionId : String
  revision : Int
  views : List NexsView
  values : List NexsCellEntry
deriving DecidableEq

/-- `NexsInteractResult`: response of `POST /api/app/{uuid}/interact`. -/
structure NexsInteractResult where
  revision : Int
  values : List NexsCellEntry
deriving DecidableEq

/-- The shared loop body of `applyDelta` and `buildCellCache`:
`for (const [sn, ci] of values) cache.set(key, { sheetName: sn, ci })`. -/
def applyValues (c : CellCache) (vs : List NexsCellEntry) : CellCache :=
  vs.foldl (fun acc p => mapSet acc (cacheKey p.1 p.2) ⟨p.1, p.2⟩) c

/-- `applyDelta(session, result)` from server.ts lines 179-184: merge the
delta values into the cache and set `session.revision = result.revision`
unconditionally. -/
def applyDelta (sess : NexsSession) (result : NexsInteractResult) : NexsSession :=
  { sess with cellCache := applyValues sess.cellCache result.values,
              revision := result.revision }

/-- `buildCellCache(values)` from server.ts lines 187-193. -/
def buildCellCache (vs : List NexsCellEntry) : CellCache := applyValues [] vs

/-- The backfill loop of the render init callback (server.ts lines 245-250):
insert a value only when its key is absent from the cache. -/
def backfillValues (c : CellCache) (vs : List NexsCellEntry) : CellCache :=
  vs.foldl (fun acc p =>
    if mapHas acc (cacheKey p.1 p.2) then acc
    else mapSet acc (cacheKey p.1 p.2) ⟨p.1, p.2⟩) c

/-- `[0-9a-f]` with the `i` flag: a hex digit of either case. -/
def hexDigit (c : Char) : Bool :=
  (('0' ≤ c) && (c ≤ '9')) || (('a' ≤ c) && (c ≤ 'f')) || (('A' ≤ c) && (c ≤ 'F'))

/-- Positions of the dashes inside a 36-character UUID. -/
def dashPos (i : Nat) : Bool := i == 8 || i == 13 || i == 18 || i == 23

/-- Whether `cs` is exactly a 36-character `8-4-4-4-12` hex UUID. -/
def uuidShape (cs : List Char) : Bool :=
  cs.length == 36 && (List.range 36).all (fun i =>
    match cs.get? i with
    | none => false
    | some c => if dashPos i then c == '-' else hexDigit c)

/-- Left-to-right scan of `extractNexsUuid`'s regex
`/\/([0-9a-f]{8}-[0-9a-f]{4}-[0-9a-f]{4}-[0-9a-f]{4}-[0-9a-f]{12})/i`:
at each `/` try to match a UUID immediately after it; first match wins. -/
def extractUuidChars : List Char → Option (List Char)
  | [] => none
  | c :: rest =>
    if c == '/' && uuidShape (rest.take 36) then some (rest.take 36)
    else extractUuidChars rest

/-- `extractNexsUuid(url)` from server.ts lines 86-91. -/
def extractNexsUuid (url : String) : Option String :=
  (extractUuidChars url.toList).map (fun cs => String.mk cs)

/-- Split a character list at the first `'!'`: `some (before, after)` when a
bang exists, `none` otherwise.  Models `cellRef.indexOf("!")` plus the two
slices. -/
def splitAtFirstBang : List Char → Option (List Char × List Char)
  | [] => none
  | c :: rest =>
    if c = '!' then some ([], rest)
    else (splitAtFirstBang rest).map (fun p => (c :: p.1, p.2))

/-- `parseCellRef(cellRef)` from server.ts lines 93-99. -/
def parseCellRef (cellRef : String) : Option String × String :=
  match splitAtFirstBang cellRef.toList with
  | some (a, b) => (some (String.mk a), String.mk b)
  | none => (none, cellRef)

/-- The sheet-name resolution expression shared by `get_cell` (lines
424-428) and `set_cell` (lines 581-585):
`sheet ?? parsedSheet ?? views.find(v => !v.isInvisible)?.sheetName ?? null`. -/
def resolvedSheet (sheet : Option String) (cellRef : String) (views : List NexsView) :
    Option String :=
  match sheet with
  | some s => some s
  | none =>
    match (parseCellRef cellRef).1 with
    | some p => some p
    | none => (views.find? (fun v => !v.isInvisible)).map (fun v => v.sheetName)

/-- The module-level mutable state of server.ts: `lastSpreadsheetUrl` and
`nexsSession`. -/
structure ServerState where
  lastSpreadsheetUrl : Option String
  nexsSession : Option NexsSession
deriving DecidableEq

/-- The synchronous part of `render_nexs_spreadsheet`: record the URL.  The
background `nexsInit` continuation is a separate event
(`renderInitComplete`). -/
def renderCall (s : ServerState) (appUrl : String) : ServerState :=
  { s with lastSpreadsheetUrl := some appUrl }

/-- The `.then` continuation of the background `nexsInit()` in
`render_nexs_spreadsheet` (server.ts lines 240-263), applied to the state
current when the promise resolves: if a browser-captured session exists,
only backfill absent cache keys; otherwise install a fresh server-side
session (`fromBrowser = false`). -/
def renderInitComplete (s : ServerState) (appUuid : String) (init : NexsInitResult) :
    ServerState :=
  let freshSession : NexsSession :=
    ⟨appUuid, init.sessionId, init.revision, init.views, buildCellCache init.values, false⟩
  match s.nexsSession with
  | some sess =>
    if sess.fromBrowser then
      let backfilled := { sess with cellCache := backfillValues sess.cellCache init.values }
      { s with nexsSession := some backfilled }
    else
      { s with nexsSession := some freshSession }
  | none => { s with nexsSession := some freshSession }

/-- One element of `set_nexs_session`'s untyped `values` array: either a
payload that fails the `Array.isArray(entry) && entry.length === 2` /
non-null checks (`malformed`), or a `[sheetname, cellinfo]` pair. -/
inductive BrowserEntry
  | malformed
  | entry (sn : String) (ci : NexsCellInfo)
deriving DecidableEq

/-- The merge loop of `set_nexs_session` (server.ts lines 358-368): skip
malformed entries and entries with a falsy (empty) sheet name or address;
otherwise overwrite. -/
def mergeBrowser (c : CellCache) (vals : List BrowserEntry) : CellCache :=
  vals.foldl (fun acc e =>
    match e with
    | .malformed => acc
    | .entry sn ci =>
      if sn ≠ "" ∧ ci.addr ≠ "" then mapSet acc (cacheKey sn ci) ⟨sn, ci⟩ else acc) c

/-- Resolve the app UUID the way `set_nexs_session` does:
`nexsSession?.appUuid ?? (lastSpreadsheetUrl ? extractNexsUuid(lastSpreadsheetUrl) : null)`. -/
def resolveAppUuid (s : ServerState) : Option String :=
  match s.nexsSession with
  | some sess => some sess.appUuid
  | none =>
    match s.lastSpreadsheetUrl with
    | some url => if url = "" then none else extractNexsUuid url
    | none => none

/-- The `set_nexs_session` tool (server.ts lines 322-371).  `views` and
`values` are the already-`Array.isArray`-checked payloads (a non-array
payload behaves as `[]`, which is representable directly). -/
def set_nexs_session (s : ServerState) (session_id : String) (rev : Int)
    (values : List BrowserEntry) (views : List NexsView) : ServerState :=
  match resolveAppUuid s with
  | none => s
  | some appUuid =>
    if appUuid = "" then s
    else
      let sess0 : NexsSession :=
        match s.nexsSession with
        | some sess =>
          { sess with
              sessionId := session_id,
              revision := rev,
              fromBrowser := true,
              views := if 0 < views.length then views else sess.views }
        | none => ⟨appUuid, session_id, rev, views, [], true⟩
      let merged := { sess0 with cellCache := mergeBrowser sess0.cellCache values }
      { s with nexsSession := some merged }

/-- First-occurrence deduplication: JS `[...new Set(xs)]`. -/
def firstDedup : List String → List String
  | [] => []
  | x :: xs => x :: firstDedup (xs.filter (fun y => y ≠ x))
termination_by l => l.length
decreasing_by
  simp only [List.length_cons]
  exact Nat.lt_succ_of_le (List.length_filter_le _ _)

/-- The known-sheet listing of `get_cell`'s not-found error (lines 495-497). -/
def knownSheets (cache : CellCache) : List String :=
  firstDedup (cache.map (fun p => p.2.sheetName))

/-- The sheetless fallback scan of `get_cell` (lines 485-491): first cache
entry, in insertion order, whose key ends with `` `!${ADDR}` ``. -/
def scanForAddr (cache : CellCache) (cellAddr : String) : Option CacheEntry :=
  (cache.find? (fun p => ("!" ++ upperStr cellAddr).toList.isSuffixOf p.1.toList)).map
    (fun p => p.2)

/-- The cache search of `get_cell` (lines 474-492).  A resolved sheet name
that is the empty string is falsy in JS, so it also takes the scan path. -/
def lookupInCache (cache : CellCache) (sheetName : Option String) (cellAddr : String) :
    Option CacheEntry :=
  match sheetName with
  | some sn =>
    if sn = "" then scanForAddr cache cellAddr
    else mapGet cache (sn ++ "!" ++ upperStr cellAddr)
  | none => scanForAddr cache cellAddr

/-- Result of a `get_cell` call. -/
inductive GetCellResult
  | noSession
  | sessionExpired
  | cellNotFound (sheets : List String)
  | ok (sheet addr : String) (value : Value) (text : String) (datatype : Datatype)
deriving DecidableEq

/-- The cache-search-and-answer tail of `get_cell` (lines 474-524). -/
def finishLookup (sess : NexsSession) (sheetName : Option String) (cellAddr : String) :
    GetCellResult :=
  match lookupInCache sess.cellCache sheetName cellAddr with
  | none => .cellNotFound (knownSheets sess.cellCache)
  | some e => .ok e.sheetName e.ci.addr e.ci.data e.ci.text e.ci.datatype

/-- Result and post-state of one `get_cell` invocation. -/
structure GetCellOut where
  result : GetCellResult
  state : ServerState
deriving DecidableEq

/-- The `get_cell` tool (server.ts lines 413-524).  `pollOutcome` is the
outcome of the zero-write `nexsInteract` poll; `initOutcome` is the outcome
of the recovery `nexsInit` (consulted only on the non-live recovery path). -/
def get_cell (s : ServerState) (cell_ref : String) (sheet : Option String)
    (pollOutcome : Except Unit NexsInteractResult)
    (initOutcome : Except Unit NexsInitResult) : GetCellOut :=
  match s.nexsSession with
  | none => ⟨.noSession, s⟩
  | some sess =>
    let cellAddr := (parseCellRef cell_ref).2
    let sheetName := resolvedSheet sheet cell_ref sess.views
    match pollOutcome with
    | .ok delta =>
      let sess1 := applyDelta sess delta
      ⟨finishLookup sess1 sheetName cellAddr, { s with nexsSession := some sess1 }⟩
    | .error _ =>
      if sess.fromBrowser then ⟨.sessionExpired, s⟩
      else
        match initOutcome with
        | .ok init =>
          let sess1 :=
            { sess with
                sessionId := init.sessionId,
                revision := init.revision,
                views := init.views,
                cellCache := buildCellCache init.values }
          ⟨finishLookup sess1 sheetName cellAddr, { s with nexsSession := some sess1 }⟩
        | .error _ => ⟨finishLookup sess sheetName cellAddr, s⟩

/-- One element of `set_cell`'s structured `changed` output. -/
structure ChangedCell where
  sheet : String
  addr : String
  value : Value
  text : String
  datatype : Datatype
deriving DecidableEq

/-- Result of a `set_cell` call. -/
inductive SetCellResult
  | noSession
  | ambiguousSheet
  | writeFailed
  | ok (revision : Int) (changed : List ChangedCell)
deriving DecidableEq

/-- A network call issued by `set_cell`: an `interact` write attempt or a
recovery `init`. -/
inductive NetCall
  | interactWrite
  | initCall
deriving DecidableEq

/-- Result, post-state, and network-call log of one `set_cell` invocation. -/
structure SetCellOut where
  result : SetCellResult
  state : ServerState
  calls : List NetCall
deriving DecidableEq

/-- `result.values.map(([sn, ci]) => ({sheet, addr, value, text, datatype}))`
from server.ts lines 642-648. -/
def toChanged (vs : List NexsCellEntry) : List ChangedCell :=
  vs.map (fun p => ⟨p.1, p.2.addr, p.2.data, p.2.text, p.2.datatype⟩)

/-- The `set_cell` tool (server.ts lines 570-659).  `interact1` is the
outcome of the initial write, `initOutcome` the recovery re-init, and
`interact2` the retried write; the latter two are consulted only on the
failure path.  A resolved sheet name that is the empty string fails the JS
truthiness check `if (!sheetName)` and is reported as ambiguous. -/
def set_cell (s : ServerState) (cell_ref : String) (value : Value) (sheet : Option String)
    (interact1 : Except Unit NexsInteractResult)
    (initOutcome : Except Unit NexsInitResult)
    (interact2 : Except Unit NexsInteractResult) : SetCellOut :=
  match s.nexsSession with
  | none => ⟨.noSession, s, []⟩
  | some sess =>
    match resolvedSheet sheet cell_ref sess.views with
    | none => ⟨.ambiguousSheet, s, []⟩
    | some sn =>
      if sn = "" then ⟨.ambiguousSheet, s, []⟩
      else
        match interact1 with
        | .ok result =>
          let sess1 := applyDelta sess result
          ⟨.ok result.revision (toChanged result.values),
           { s with nexsSession := some sess1 }, [.interactWrite]⟩
        | .error _ =>
          match initOutcome with
          | .error _ => ⟨.writeFailed, s, [.interactWrite, .initCall]⟩
          | .ok init =>
            let fresh : NexsSession :=
              ⟨sess.appUuid, init.sessionId, init.revision, init.views,
               buildCellCache init.values, false⟩
            match interact2 with
            | .error _ =>
              ⟨.writeFailed, { s with nexsSession := some fresh },
               [.interactWrite, .initCall, .interactWrite]⟩
            | .ok result =>
              let sess1 := applyDelta fresh result
              ⟨.ok result.revision (toChanged result.values),
               { s with nexsSession := some sess1 },
               [.interactWrite, .initCall, .interactWrite]⟩

/-- Cache lookup through the server state. -/
def sessionCacheGet (s : ServerState) (k : String) : Option CacheEntry :=
  s.nexsSession.bind (fun sess => mapGet sess.cellCache k)

/-- The `fromBrowser` flag of the current session, if any. -/
def sessionFromBrowser (s : ServerState) : Option Bool :=
  s.nexsSession.map (fun sess => sess.fromBrowser)

/-! Lookup characterizations of the cache-updating folds. -/

/-- Last element of `vs` whose cache key is `k`, as a cache entry. -/
def lastWrite : List NexsCellEntry → String → Option CacheEntry
  | [], _ => none
  | p :: rest, k =>
    match lastWrite rest k with
    | some v => some v
    | none => if cacheKey p.1 p.2 = k then some ⟨p.1, p.2⟩ else none

/-- First element of `vs` whose cache key is `k`, as a cache entry. -/
def firstWrite : List NexsCellEntry → String → Option CacheEntry
  | [], _ => none
  | p :: rest, k =>
    if cacheKey p.1 p.2 = k then some ⟨p.1, p.2⟩ else firstWrite rest k

/-- Last well-formed browser entry whose cache key is `k`. -/
def lastBrowserWrite : List BrowserEntry → String → Option CacheEntry
  | [], _ => none
  | e :: rest, k =>
    match lastBrowserWrite rest k with
    | some v => some v
    | none =>
      match e with
      | .malformed => none
      | .entry sn ci =>
        if (sn ≠ "" ∧ ci.addr ≠ "") ∧ cacheKey sn ci = k then some ⟨sn, ci⟩ else none

/-- First-some choice on options. -/
def fallback (a b : Option CacheEntry) : Option CacheEntry :=
  match a with
  | some v => some v
  | none => b

@[simp] theorem fallback_some (v : CacheEntry) (b : Option CacheEntry) :
    fallback (some v) b = some v := rfl

@[simp] theorem fallback_none (b : Option CacheEntry) : fallback none b = b := rfl

theorem fallback_assoc (a b c : Option CacheEntry) :
    fallback a (fallback b c) = fallback (fallback a b) c := by
  cases a <;> simp [fallback]

theorem fallback_none_right (a : Option CacheEntry) : fallback a none = a := by
  cases a <;> simp [fallback]

@[simp] theorem mapGet_nil (k : String) : mapGet [] k = none := rfl

theorem mapGet_eq_none_of_not_has (m : CellCache) (k : String) (h : mapHas m k = false) :
    mapGet m k = none := by
  unfold mapGet
  have hfind : m.find? (fun p => p.1 == k) = none := by
    rw [List.find?_eq_none]
    intro p hp
    have := (List.any_eq_false).mp h p hp
    simpa using this
  rw [hfind]; rfl

theorem mapHas_of_get_some (m : CellCache) (k : String) (v : CacheEntry)
    (h : mapGet m k = some v) : mapHas m k = true := by
  by_contra hc
  rw [mapGet_eq_none_of_not_has m k (Bool.eq_false_iff.mpr hc)] at h
  exact Option.noConfusion h

theorem find?_eq_none_of_not_has (m : CellCache) (k : String) (h : mapHas m k = false) :
    m.find? (fun p => p.1 == k) = none := by
  rw [List.find?_eq_none]
  intro p hp
  have := (List.any_eq_false).mp h p hp
  simpa using this

theorem mapGet_mapSet (m : CellCache) (k j : String) (v : CacheEntry) :
    mapGet (mapSet m k v) j = if j = k then some v else mapGet m j := by
  rcases hhas : mapHas m k with _ | _
  · -- key absent: append at the end
    have hset : mapSet m k v = m ++ [(k, v)] := by rw [mapSet, hhas]; simp
    rw [hset]
    unfold mapGet
    rw [List.find?_append]
    by_cases hj : j = k
    · subst hj
      rw [find?_eq_none_of_not_has m j hhas]
      simp [List.find?]
    · have : ((k, v) :: ([] : CellCache)).find? (fun p => p.1 == j) = none := by
        simp [List.find?_cons_of_neg, hj, beq_iff_eq]
        exact fun e => hj e.symm
      rw [this, Option.or_none, if_neg hj]
  · -- key present: in-place map update
    have hset : mapSet m k v = m.map (fun p => if p.1 == k then (k, v) else p) := by
      rw [mapSet, hhas]; simp
    rw [hset]
    unfold mapGet
    rw [List.find?_map]
    by_cases hj : j = k
    · subst hj
      -- the predicate composed with the update equals the original key test
      have hpred : ((fun p : String × CacheEntry => p.1 == j) ∘
          (fun p => if p.1 == j then (j, v) else p)) = (fun p : String × CacheEntry => p.1 == j) := by
        funext p
        by_cases hp : p.1 = j <;> simp [hp]
      rw [hpred, if_pos rfl]
      obtain ⟨p0, hp0mem, hp0⟩ := List.any_eq_true.mp hhas
      rcases hfind : m.find? (fun p => p.1 == j) with _ | p1
      · exfalso
        exact (List.find?_eq_none.mp hfind p0 hp0mem) hp0
      · have hp1 := List.find?_some hfind
        rw [hfind]
        simp only [beq_iff_eq] at hp1
        simp [hp1]
    · have hpred : ((fun p : String × CacheEntry => p.1 == j) ∘
          (fun p => if p.1 == k then (k, v) else p)) = (fun p : String × CacheEntry => p.1 == j) := by
        funext p
        by_cases hp : p.1 = k <;> simp [hp]
      rw [hpred, if_neg hj]
      rcases hfind : m.find? (fun p => p.1 == j) with _ | p1
      · rw [hfind]; rfl
      · have hp1 := List.find?_some hfind
        rw [hfind]
        simp only [beq_iff_eq] at hp1
        have hp1k : ¬ (p1.1 = k) := by rw [hp1]; exact hj
        simp [hp1k]

theorem mapGet_isSome_of_has (m : CellCache) (k : String) (h : mapHas m k = true) :
    ∃ w, mapGet m k = some w := by
  rcases hf : m.find? (fun p => p.1 == k) with _ | p0
  · exfalso
    obtain ⟨q, hqm, hq⟩ := List.any_eq_true.mp h
    exact (List.find?_eq_none.mp hf q hqm) hq
  · refine ⟨p0.2, ?_⟩
    unfold mapGet
    rw [hf]
    rfl

theorem mapGet_applyValues (vs : List NexsCellEntry) (c : CellCache) (j : String) :
    mapGet (applyValues c vs) j = fallback (lastWrite vs j) (mapGet c j) := by
  induction vs generalizing c with
  | nil => simp [applyValues, lastWrite]
  | cons p rest ih =>
    have hstep : applyValues c (p :: rest) =
        applyValues (mapSet c (cacheKey p.1 p.2) ⟨p.1, p.2⟩) rest := rfl
    have hcons : lastWrite (p :: rest) j =
        match lastWrite rest j with
        | some v => some v
        | none => if cacheKey p.1 p.2 = j then some ⟨p.1, p.2⟩ else none := rfl
    rw [hstep, ih, mapGet_mapSet, hcons]
    cases hl : lastWrite rest j with
    | some v => simp [fallback]
    | none =>
      simp only [fallback]
      by_cases hk : cacheKey p.1 p.2 = j
      · rw [if_pos hk, if_pos hk.symm]
      · rw [if_neg hk, if_neg (fun e => hk e.symm)]

theorem mapGet_backfillValues (vs : List NexsCellEntry) (c : CellCache) (j : String) :
    mapGet (backfillValues c vs) j = fallback (mapGet c j) (firstWrite vs j) := by
  induction vs generalizing c with
  | nil => simp [backfillValues, firstWrite, fallback_none_right]
  | cons p rest ih =>
    have hstep : backfillValues c (p :: rest) =
        backfillValues (if mapHas c (cacheKey p.1 p.2) then c
          else mapSet c (cacheKey p.1 p.2) ⟨p.1, p.2⟩) rest := rfl
    have hfw : firstWrite (p :: rest) j =
        if cacheKey p.1 p.2 = j then some ⟨p.1, p.2⟩ else firstWrite rest j := rfl
    rw [hstep, hfw]
    rcases hhas : mapHas c (cacheKey p.1 p.2) with _ | _
    · -- key absent from the cache: the entry is inserted
      simp only [hhas, Bool.false_eq_true, if_false]
      rw [ih, mapGet_mapSet]
      by_cases hk : cacheKey p.1 p.2 = j
      · rw [if_pos hk, if_pos hk.symm,
          mapGet_eq_none_of_not_has c j (by rw [← hk]; exact hhas)]
        simp [fallback]
      · rw [if_neg hk, if_neg (fun e => hk e.symm)]
    · -- key already present: the step is a no-op
      simp only [hhas, if_true]
      rw [ih]
      by_cases hk : cacheKey p.1 p.2 = j
      · obtain ⟨w, hw⟩ := mapGet_isSome_of_has c j (by rw [← hk]; exact hhas)
        rw [hw, if_pos hk]
        simp [fallback]
      · rw [if_neg hk]

theorem mapGet_mergeBrowser (vals : List BrowserEntry) (c : CellCache) (j : String) :
    mapGet (mergeBrowser c vals) j = fallback (lastBrowserWrite vals j) (mapGet c j) := by
  induction vals generalizing c with
  | nil => simp [mergeBrowser, lastBrowserWrite]
  | cons e rest ih =>
    cases e with
    | malformed =>
      have hstep : mergeBrowser c (BrowserEntry.malformed :: rest) = mergeBrowser c rest := rfl
      have hcons : lastBrowserWrite (BrowserEntry.malformed :: rest) j =
          match lastBrowserWrite rest j with
          | some v => some v
          | none => none := rfl
      rw [hstep, ih, hcons]
      cases hl : lastBrowserWrite rest j <;> simp [fallback]
    | entry sn ci =>
      have hstep : mergeBrowser c (BrowserEntry.entry sn ci :: rest) =
          mergeBrowser (if sn ≠ "" ∧ ci.addr ≠ ""
            then mapSet c (cacheKey sn ci) ⟨sn, ci⟩ else c) rest := rfl
      have hcons : lastBrowserWrite (BrowserEntry.entry sn ci :: rest) j =
          match lastBrowserWrite rest j with
          | some v => some v
          | none =>
            if (sn ≠ "" ∧ ci.addr ≠ "") ∧ cacheKey sn ci = j
            then some ⟨sn, ci⟩ else none := rfl
      rw [hstep, hcons]
      by_cases hg : sn ≠ "" ∧ ci.addr ≠ ""
      · rw [if_pos hg, ih, mapGet_mapSet]
        cases hl : lastBrowserWrite rest j with
        | some v => simp [fallback]
        | none =>
          by_cases hk : cacheKey sn ci = j
          · simp [fallback, hg.1, hg.2, hk]
          · simp [fallback, hk, Ne.symm hk]
      · rw [if_neg hg, ih]
        cases hl : lastBrowserWrite rest j with
        | some v => simp [fallback]
        | none => simp [fallback, hg]

theorem firstWrite_eq_none (vs : List NexsCellEntry) (j : String)
    (h : ∀ p ∈ vs, cacheKey p.1 p.2 ≠ j) : firstWrite vs j = none := by
  induction vs with
  | nil => rfl
  | cons p rest ih =>
    have hfw : firstWrite (p :: rest) j =
        if cacheKey p.1 p.2 = j then some ⟨p.1, p.2⟩ else firstWrite rest j := rfl
    rw [hfw, if_neg (h p (List.mem_cons_self p rest))]
    exact ih (fun q hq => h q (List.mem_cons_of_mem p hq))

theorem lastWrite_eq_firstWrite (vs : List NexsCellEntry) (j : String)
    (h : (vs.map (fun p => cacheKey p.1 p.2)).Nodup) :
    lastWrite vs j = firstWrite vs j := by
  induction vs with
  | nil => rfl
  | cons p rest ih =>
    rw [List.map_cons, List.nodup_cons] at h
    obtain ⟨hnot, hrest⟩ := h
    have hcons : lastWrite (p :: rest) j =
        match lastWrite rest j with
        | some v => some v
        | none => if cacheKey p.1 p.2 = j then some ⟨p.1, p.2⟩ else none := rfl
    have hfw : firstWrite (p :: rest) j =
        if cacheKey p.1 p.2 = j then some ⟨p.1, p.2⟩ else firstWrite rest j := rfl
    rw [hcons, hfw, ih hrest]
    by_cases hk : cacheKey p.1 p.2 = j
    · have hnone : firstWrite rest j = none := by
        apply firstWrite_eq_none
        intro q hq he
        apply hnot
        have hpq : cacheKey p.1 p.2 = cacheKey q.1 q.2 := by rw [hk, he]
        rw [hpq]
        exact List.mem_map_of_mem (fun p => cacheKey p.1 p.2) hq
      rw [hnone, if_pos hk]
    · simp only [if_neg hk]
      cases hf : firstWrite rest j <;> rfl

theorem revision_foldl (rs : List NexsInteractResult) (sess : NexsSession) :
    (rs.foldl applyDelta sess).revision =
      (rs.map NexsInteractResult.revision).getLastD sess.revision := by
  induction rs generalizing sess with
  | nil => rfl
  | cons r rest ih =>
    have hstep : (r :: rest).foldl applyDelta sess = rest.foldl applyDelta (applyDelta sess r) := rfl
    rw [hstep, ih, List.map_cons, List.getLastD_cons]
    rfl

/-! Branch characterizations of the reconciliation operations. -/

theorem uuidShape_length (cs : List Char) (h : uuidShape cs = true) : cs.length = 36 := by
  unfold uuidShape at h
  rw [Bool.and_eq_true] at h
  simpa using h.1

theorem extractUuidChars_shape (l : List Char) (cs : List Char)
    (h : extractUuidChars l = some cs) : uuidShape cs = true := by
  induction l with
  | nil => exact absurd h (by simp [extractUuidChars])
  | cons c rest ih =>
    rw [extractUuidChars] at h
    by_cases hc : (c == '/' && uuidShape (rest.take 36)) = true
    · rw [if_pos hc] at h
      rw [Bool.and_eq_true] at hc
      rw [← Option.some.inj h]
      exact hc.2
    · rw [if_neg hc] at h
      exact ih h

theorem extractNexsUuid_ne_empty (url : String) (u : String)
    (h : extractNexsUuid url = some u) : u ≠ "" := by
  unfold extractNexsUuid at h
  rcases he : extractUuidChars url.toList with _ | cs
  · rw [he] at h
    exact absurd h (by simp)
  · rw [he] at h
    have hmk : String.mk cs = u := by simpa using h
    have hlen := uuidShape_length cs (extractUuidChars_shape _ _ he)
    intro he2
    have hcs : cs = [] := by
      have h1 : (String.mk cs).data = cs := rfl
      have h2 : ("" : String).data = [] := rfl
      rw [hmk, he2, h2] at h1
      exact h1.symm
    rw [hcs] at hlen
    simp at hlen

theorem resolveAppUuid_ne_empty_of_none (s : ServerState) (u : String)
    (h : s.nexsSession = none) (hres : resolveAppUuid s = some u) : u ≠ "" := by
  obtain ⟨urlOpt, osess⟩ := s
  rcases osess with _ | sess
  · rcases urlOpt with _ | url
    · simp [resolveAppUuid] at hres
    · simp only [resolveAppUuid] at hres
      by_cases he : url = ""
      · rw [if_pos he] at hres
        exact absurd hres (by simp)
      · rw [if_neg he] at hres
        exact extractNexsUuid_ne_empty url u hres
  · exact absurd h (by simp)

theorem renderInitComplete_noSession (s : ServerState) (u : String) (A : NexsInitResult)
    (h : s.nexsSession = none) :
    renderInitComplete s u A =
      { s with
          nexsSession :=
            some ⟨u, A.sessionId, A.revision, A.views, buildCellCache A.values, false⟩ } := by
  obtain ⟨urlOpt, osess⟩ := s
  rcases osess with _ | sess
  · rfl
  · exact absurd h (by simp)

theorem renderInitComplete_live (s : ServerState) (sess : NexsSession) (u : String)
    (A : NexsInitResult) (h : s.nexsSession = some sess) (hb : sess.fromBrowser = true) :
    renderInitComplete s u A =
      { s with
          nexsSession :=
            some ({ sess with cellCache := backfillValues sess.cellCache A.values }) } := by
  obtain ⟨urlOpt, osess⟩ := s
  rcases osess with _ | sess0
  · exact absurd h (by simp)
  · have he : sess0 = sess := by simpa using h
    subst he
    simp [renderInitComplete, hb]

theorem renderInitComplete_nonLive (s : ServerState) (sess : NexsSession) (u : String)
    (A : NexsInitResult) (h : s.nexsSession = some sess) (hb : sess.fromBrowser = false) :
    renderInitComplete s u A =
      { s with
          nexsSession :=
            some ⟨u, A.sessionId, A.revision, A.views, buildCellCache A.values, false⟩ } := by
  obtain ⟨urlOpt, osess⟩ := s
  rcases osess with _ | sess0
  · exact absurd h (by simp)
  · have he : sess0 = sess := by simpa using h
    subst he
    simp [renderInitComplete, hb]

theorem set_nexs_session_update (s : ServerState) (sess : NexsSession) (sid : String)
    (rev : Int) (vals : List BrowserEntry) (vws : List NexsView)
    (h : s.nexsSession = some sess) (ha : sess.appUuid ≠ "") :
    set_nexs_session s sid rev vals vws =
      { s with
          nexsSession :=
            some ({ sess with
                      sessionId := sid,
                      revision := rev,
                      fromBrowser := true,
                      views := if 0 < vws.length then vws else sess.views,
                      cellCache := mergeBrowser sess.cellCache vals }) } := by
  obtain ⟨urlOpt, osess⟩ := s
  rcases osess with _ | sess0
  · exact absurd h (by simp)
  · have he : sess0 = sess := by simpa using h
    subst he
    simp [set_nexs_session, resolveAppUuid, ha]

theorem set_nexs_session_create (s : ServerState) (sid : String) (rev : Int)
    (vals : List BrowserEntry) (vws : List NexsView) (u : String)
    (h : s.nexsSession = none) (hres : resolveAppUuid s = some u) (hu : u ≠ "") :
    set_nexs_session s sid rev vals vws =
      { s with
          nexsSession := some ⟨u, sid, rev, vws, mergeBrowser [] vals, true⟩ } := by
  obtain ⟨urlOpt, osess⟩ := s
  rcases osess with _ | sess0
  · simp [set_nexs_session, hres, hu]
  · exact absurd h (by simp)

/-- C1 (amended): the reconciliation race between the render tool's
background init completion `A` and a browser `set_nexs_session` report `B`
is order-insensitive — provided the race starts from a state with no
session or with a live-bound session, and the init snapshot carries at
most one entry per cache key.  Both orders then yield the same cache
mapping, a live-bound (`fromBrowser = true`) session, and the same
`sessionId` and `revision`. -/
theorem reconcileOrderInsensitive (s : ServerState) (u sid : String) (rev : Int)
    (A : NexsInitResult) (vals : List BrowserEntry) (vws : List NexsView)
    (hu : u ≠ "")
    (hpre : (s.nexsSession = none ∧ (resolveAppUuid s).isSome) ∨
            (∃ sess, s.nexsSession = some sess ∧ sess.fromBrowser = true ∧ sess.appUuid ≠ ""))
    (hA : (A.values.map (fun p => cacheKey p.1 p.2)).Nodup) :
    (∀ k, sessionCacheGet (set_nexs_session (renderInitComplete s u A) sid rev vals vws) k =
          sessionCacheGet (renderInitComplete (set_nexs_session s sid rev vals vws) u A) k) ∧
    sessionFromBrowser (set_nexs_session (renderInitComplete s u A) sid rev vals vws) =
      some true ∧
    sessionFromBrowser (renderInitComplete (set_nexs_session s sid rev vals vws) u A) =
      some true ∧
    (set_nexs_session (renderInitComplete s u A) sid rev vals vws).nexsSession.map
        NexsSession.sessionId =
      (renderInitComplete (set_nexs_session s sid rev vals vws) u A).nexsSession.map
        NexsSession.sessionId ∧
    (set_nexs_session (renderInitComplete s u A) sid rev vals vws).nexsSession.map
        NexsSession.revision =
      (renderInitComplete (set_nexs_session s sid rev vals vws) u A).nexsSession.map
        NexsSession.revision := by
  rcases hpre with ⟨hnone, hsome⟩ | ⟨sess, hsess, hb, ha⟩
  · -- no session yet when the race begins
    obtain ⟨u2, hres⟩ := Option.isSome_iff_exists.mp hsome
    have hu2 := resolveAppUuid_ne_empty_of_none s u2 hnone hres
    rw [renderInitComplete_noSession s u A hnone,
        set_nexs_session_create s sid rev vals vws u2 hnone hres hu2,
        set_nexs_session_update
          { s with
              nexsSession :=
                some ⟨u, A.sessionId, A.revision, A.views, buildCellCache A.values, false⟩ }
          ⟨u, A.sessionId, A.revision, A.views, buildCellCache A.values, false⟩
          sid rev vals vws rfl hu,
        renderInitComplete_live
          { s with nexsSession := some ⟨u2, sid, rev, vws, mergeBrowser [] vals, true⟩ }
          ⟨u2, sid, rev, vws, mergeBrowser [] vals, true⟩ u A rfl rfl]
    refine ⟨?_, rfl, rfl, rfl, rfl⟩
    intro k
    simp only [sessionCacheGet, Option.some_bind]
    rw [buildCellCache, mapGet_mergeBrowser, mapGet_applyValues, mapGet_nil,
        fallback_none_right, lastWrite_eq_firstWrite A.values k hA,
        mapGet_backfillValues, mapGet_mergeBrowser, mapGet_nil, fallback_none_right]
  · -- a live-bound session already exists
    rw [renderInitComplete_live s sess u A hsess hb,
        set_nexs_session_update s sess sid rev vals vws hsess ha,
        set_nexs_session_update
          { s with
              nexsSession :=
                some ({ sess with cellCache := backfillValues sess.cellCache A.values }) }
          ({ sess with cellCache := backfillValues sess.cellCache A.values })
          sid rev vals vws rfl ha,
        renderInitComplete_live
          { s with
              nexsSession :=
                some ({ sess with
                          sessionId := sid,
                          revision := rev,
                          fromBrowser := true,
                          views := if 0 < vws.length then vws else sess.views,
                          cellCache := mergeBrowser sess.cellCache vals }) }
          ({ sess with
               sessionId := sid,
               revision := rev,
               fromBrowser := true,
               views := if 0 < vws.length then vws else sess.views,
               cellCache := mergeBrowser sess.cellCache vals }) u A rfl rfl]
    refine ⟨?_, rfl, rfl, rfl, rfl⟩
    intro k
    simp only [sessionCacheGet, Option.some_bind]
    rw [mapGet_mergeBrowser, mapGet_backfillValues, fallback_assoc,
        mapGet_backfillValues, mapGet_mergeBrowser]

/-- Pre-state for the C1 witness: a live-bound session already captured. -/
def c1wState : ServerState := ⟨none, some ⟨"u0", "s0", 1, [], [], true⟩⟩

/-- Backend init result for the C1 witness. -/
def c1wInit : NexsInitResult := ⟨"sA", 3, [], [("S", ⟨"A1", .num 5, .numeric, "5", none⟩)]⟩

/-- Witness for `reconcileOrderInsensitive` at a concrete input. -/
theorem reconcileOrderInsensitiveWitness :
    (("u1" : String) ≠ "") ∧
    (∃ sess, c1wState.nexsSession = some sess ∧ sess.fromBrowser = true ∧ sess.appUuid ≠ "") ∧
    (c1wInit.values.map (fun p => cacheKey p.1 p.2)).Nodup ∧
    sessionCacheGet (set_nexs_session (renderInitComplete c1wState "u1" c1wInit) "sidB" 2 [] [])
        "S!A1" =
      sessionCacheGet (renderInitComplete (set_nexs_session c1wState "sidB" 2 [] []) "u1" c1wInit)
        "S!A1" ∧
    sessionFromBrowser (set_nexs_session (renderInitComplete c1wState "u1" c1wInit) "sidB" 2 [] []) =
      some true := by
  have h := reconcileOrderInsensitive c1wState "u1" "sidB" 2 c1wInit [] [] (by decide)
    (Or.inr ⟨⟨"u0", "s0", 1, [], [], true⟩, rfl, rfl, by decide⟩) (by decide)
  exact ⟨by decide, ⟨⟨"u0", "s0", 1, [], [], true⟩, rfl, rfl, by decide⟩, by decide,
    h.1 "S!A1", h.2.1⟩

/-- A cell with value 1 used by the C1 counterexample. -/
def c1ci1 : NexsCellInfo := ⟨"A1", .num 1, .numeric, "1", none⟩

/-- A cell with value 2 used by the C1 counterexample. -/
def c1ci2 : NexsCellInfo := ⟨"A1", .num 2, .numeric, "2", none⟩

/-- A reachable pre-state holding a stale non-live session whose cache has
`S!A1`: a first render's background init completed, no browser report. -/
def c1staleState : ServerState :=
  renderInitComplete ⟨none, none⟩ "u0" ⟨"s0", 1, [], [("S", c1ci1)]⟩

/-- A second render's backend init result with an empty snapshot. -/
def c1cexA : NexsInitResult := ⟨"s1", 2, [], []⟩

/-- Init-then-browser order from the stale pre-state. -/
def c1cexAB : ServerState :=
  set_nexs_session (renderInitComplete c1staleState "u0" c1cexA) "sidB" 3 [] []

/-- Browser-then-init order from the stale pre-state. -/
def c1cexBA : ServerState :=
  renderInitComplete (set_nexs_session c1staleState "sidB" 3 [] []) "u0" c1cexA

/-- URL whose UUID the render tool extracts, for the duplicate-key instance. -/
def c1url : String := "https://platform.nexs.com/a/aaaaaaaa-aaaa-aaaa-aaaa-aaaaaaaaaaaa"

/-- The UUID inside `c1url`. -/
def c1uuid : String := "aaaaaaaa-aaaa-aaaa-aaaa-aaaaaaaaaaaa"

/-- An init snapshot listing the same cell twice with different values. -/
def c1dupA : NexsInitResult := ⟨"s1", 2, [], [("S", c1ci1), ("S", c1ci2)]⟩

/-- Init-then-browser order from a no-session state, duplicate snapshot. -/
def c1cexAB2 : ServerState :=
  set_nexs_session (renderInitComplete ⟨some c1url, none⟩ c1uuid c1dupA) "sidB" 3 [] []

/-- Browser-then-init order from a no-session state, duplicate snapshot. -/
def c1cexBA2 : ServerState :=
  renderInitComplete (set_nexs_session (⟨some c1url, none⟩ : ServerState) "sidB" 3 [] [])
    c1uuid c1dupA

/-- C1 (counterexample): reconciliation is not order-insensitive as claimed.
From a reachable state holding a stale non-live session caching `S!A1`,
init-then-browser drops the entry while browser-then-init keeps it; and
even from a no-session state, an init snapshot listing the same key twice
yields the last occurrence in one order and the first in the other. -/
theorem reconcileOrderCounterexample :
    sessionCacheGet c1cexAB "S!A1" = none ∧
    sessionCacheGet c1cexBA "S!A1" = some ⟨"S", c1ci1⟩ ∧
    sessionCacheGet c1cexAB2 "S!A1" = some ⟨"S", c1ci2⟩ ∧
    sessionCacheGet c1cexBA2 "S!A1" = some ⟨"S", c1ci1⟩ := by decide

/-- C8: `applyDelta` is idempotent — applying the same interact result twice
yields the same cache contents (every key maps to the same entry) and the
same revision as applying it once. -/
theorem applyDeltaIdempotent (sess : NexsSession) (result : NexsInteractResult) (k : String) :
    mapGet (applyDelta (applyDelta sess result) result).cellCache k =
      mapGet (applyDelta sess result).cellCache k ∧
    (applyDelta (applyDelta sess result) result).revision =
      (applyDelta sess result).revision := by
  constructor
  · show mapGet (applyValues (applyValues sess.cellCache result.values) result.values) k =
      mapGet (applyValues sess.cellCache result.values) k
    rw [mapGet_applyValues, mapGet_applyValues]
    cases hl : lastWrite result.values k <;> simp [fallback]
  · rfl

/-- Session used by the C3 counterexample. -/
def c3sess : NexsSession := ⟨"u", "s", 0, [], [], false⟩

/-- C3 (counterexample): `applyDelta` sets `session.revision` to the
result's revision unconditionally, so after applying deltas with revisions
5 then 3 the session holds 3, not the maximum 5 — the revision decreased. -/
theorem revisionMaxCounterexample :
    (applyDelta (applyDelta c3sess ⟨5, []⟩) ⟨3, []⟩).revision = 3 ∧
    (applyDelta c3sess ⟨5, []⟩).revision = 5 ∧
    (applyDelta (applyDelta c3sess ⟨5, []⟩) ⟨3, []⟩).revision <
      (applyDelta c3sess ⟨5, []⟩).revision := by decide

/-- C3 (amended): after any sequence of `applyDelta` calls the session's
revision equals the revision of the last result applied (or the starting
revision when no delta was applied), not the maximum of the sequence. -/
theorem revisionLastApplied (sess : NexsSession) (rs : List NexsInteractResult) :
    (rs.foldl applyDelta sess).revision =
      (rs.map NexsInteractResult.revision).getLastD sess.revision :=
  revision_foldl rs sess

/-- C2 (amended): `get_cell` never demotes a live-bound session, on any of
its paths; `set_cell` preserves `fromBrowser = true` when its initial write
succeeds, and also when the write and the recovery re-init both fail — but
not when the write fails and the re-init succeeds (see the counterexample). -/
theorem liveBoundPreserved (s : ServerState) (sess : NexsSession)
    (h : s.nexsSession = some sess) (hb : sess.fromBrowser = true) :
    (∀ ref sh poll initO,
      sessionFromBrowser (get_cell s ref sh poll initO).state = some true) ∧
    (∀ ref v sh r initO i2,
      sessionFromBrowser (set_cell s ref v sh (.ok r) initO i2).state = some true) ∧
    (∀ ref v sh i2,
      sessionFromBrowser (set_cell s ref v sh (.error ()) (.error ()) i2).state =
        some true) := by
  obtain ⟨urlOpt, osess⟩ := s
  rcases osess with _ | sess0
  · exact absurd h (by simp)
  · have he : sess0 = sess := by simpa using h
    subst he
    refine ⟨?_, ?_, ?_⟩
    · intro ref sh poll initO
      cases poll with
      | error e => simp [get_cell, hb, sessionFromBrowser]
      | ok delta => simp [get_cell, sessionFromBrowser, applyDelta, hb]
    · intro ref v sh r initO i2
      rcases hres : resolvedSheet sh ref sess0.views with _ | sn
      · simp [set_cell, hres, sessionFromBrowser, hb]
      · by_cases hsn : sn = ""
        · simp [set_cell, hres, hsn, sessionFromBrowser, hb]
        · simp [set_cell, hres, hsn, sessionFromBrowser, applyDelta, hb]
    · intro ref v sh i2
      rcases hres : resolvedSheet sh ref sess0.views with _ | sn
      · simp [set_cell, hres, sessionFromBrowser, hb]
      · by_cases hsn : sn = ""
        · simp [set_cell, hres, hsn, sessionFromBrowser, hb]
        · simp [set_cell, hres, hsn, sessionFromBrowser, hb]

/-- Session used by the C2 witness. -/
def c2wSess : NexsSession := ⟨"u0", "s0", 1, [], [], true⟩

/-- State used by the C2 witness. -/
def c2wState : ServerState := ⟨none, some c2wSess⟩

/-- Witness for `liveBoundPreserved` at a concrete input. -/
theorem liveBoundPreservedWitness :
    c2wState.nexsSession = some c2wSess ∧ c2wSess.fromBrowser = true ∧
    sessionFromBrowser (get_cell c2wState "A1" none (.error ()) (.error ())).state =
      some true ∧
    sessionFromBrowser
        (set_cell c2wState "A1" (.num 1) (some "S") (.ok ⟨2, []⟩) (.error ())
          (.error ())).state = some true := by
  have h := liveBoundPreserved c2wState c2wSess rfl rfl
  exact ⟨rfl, rfl, h.1 "A1" none (.error ()) (.error ()),
    h.2.1 "A1" (.num 1) (some "S") ⟨2, []⟩ (.error ()) (.error ())⟩

/-- Backend init result seeding the C2 counterexample state. -/
def c2init : NexsInitResult := ⟨"sid0", 1, [], []⟩

/-- A reachable live-bound state: render's background init completed, then
the browser reported its session. -/
def c2liveState : ServerState :=
  set_nexs_session (renderInitComplete ⟨none, none⟩ "u0" c2init) "sidB" 2 [] []

/-- C2 (counterexample): a live-bound session IS demoted by `set_cell`'s
recovery path — when the initial write fails and the recovery re-init
succeeds, the session is replaced by a fresh backend-initiated one with
`fromBrowser = false`, even though the retried write then succeeds. -/
theorem liveBoundDemotionCounterexample :
    sessionFromBrowser c2liveState = some true ∧
    sessionFromBrowser
        (set_cell c2liveState "A1" (.num 5) (some "S") (.error ())
          (.ok ⟨"sid2", 3, [], []⟩) (.ok ⟨4, []⟩)).state = some false := by decide

/-! Path characterizations of `get_cell` and `set_cell`. -/

theorem get_cell_sync_ok (s : ServerState) (sess : NexsSession)
    (h : s.nexsSession = some sess) (ref : String) (sh : Option String)
    (delta : NexsInteractResult) (initO : Except Unit NexsInitResult) :
    get_cell s ref sh (.ok delta) initO =
      ⟨finishLookup (applyDelta sess delta) (resolvedSheet sh ref sess.views)
          (parseCellRef ref).2,
        { s with nexsSession := some (applyDelta sess delta) }⟩ := by
  obtain ⟨urlOpt, osess⟩ := s
  rcases osess with _ | sess0
  · exact absurd h (by simp)
  · have he : sess0 = sess := by simpa using h
    subst he
    simp [get_cell]

theorem get_cell_recover (s : ServerState) (sess : NexsSession)
    (h : s.nexsSession = some sess) (hb : sess.fromBrowser = false)
    (ref : String) (sh : Option String) (init : NexsInitResult) :
    get_cell s ref sh (.error ()) (.ok init) =
      ⟨finishLookup
          { sess with
              sessionId := init.sessionId,
              revision := init.revision,
              views := init.views,
              cellCache := buildCellCache init.values }
          (resolvedSheet sh ref sess.views) (parseCellRef ref).2,
        { s with
            nexsSession :=
              some ({ sess with
                        sessionId := init.sessionId,
                        revision := init.revision,
                        views := init.views,
                        cellCache := buildCellCache init.values }) }⟩ := by
  obtain ⟨urlOpt, osess⟩ := s
  rcases osess with _ | sess0
  · exact absurd h (by simp)
  · have he : sess0 = sess := by simpa using h
    subst he
    simp [get_cell, hb]

theorem get_cell_expired (s : ServerState) (sess : NexsSession)
    (h : s.nexsSession = some sess) (hb : sess.fromBrowser = true)
    (ref : String) (sh : Option String) (initO : Except Unit NexsInitResult) :
    get_cell s ref sh (.error ()) initO = ⟨.sessionExpired, s⟩ := by
  obtain ⟨urlOpt, osess⟩ := s
  rcases osess with _ | sess0
  · exact absurd h (by simp)
  · have he : sess0 = sess := by simpa using h
    subst he
    simp [get_cell, hb]

theorem get_cell_stale (s : ServerState) (sess : NexsSession)
    (h : s.nexsSession = some sess) (hb : sess.fromBrowser = false)
    (ref : String) (sh : Option String) :
    get_cell s ref sh (.error ()) (.error ()) =
      ⟨finishLookup sess (resolvedSheet sh ref sess.views) (parseCellRef ref).2, s⟩ := by
  obtain ⟨urlOpt, osess⟩ := s
  rcases osess with _ | sess0
  · exact absurd h (by simp)
  · have he : sess0 = sess := by simpa using h
    subst he
    simp [get_cell, hb]

theorem set_cell_first_ok (s : ServerState) (sess : NexsSession)
    (h : s.nexsSession = some sess) (ref : String) (v : Value) (sh : Option String)
    (sn : String) (hres : resolvedSheet sh ref sess.views = some sn) (hsn : sn ≠ "")
    (r : NexsInteractResult) (o2 : Except Unit NexsInitResult)
    (o3 : Except Unit NexsInteractResult) :
    set_cell s ref v sh (.ok r) o2 o3 =
      ⟨.ok r.revision (toChanged r.values),
        { s with nexsSession := some (applyDelta sess r) }, [.interactWrite]⟩ := by
  obtain ⟨urlOpt, osess⟩ := s
  rcases osess with _ | sess0
  · exact absurd h (by simp)
  · have he : sess0 = sess := by simpa using h
    subst he
    simp [set_cell, hres, hsn]

theorem set_cell_both_fail (s : ServerState) (sess : NexsSession)
    (h : s.nexsSession = some sess) (ref : String) (v : Value) (sh : Option String)
    (sn : String) (hres : resolvedSheet sh ref sess.views = some sn) (hsn : sn ≠ "")
    (o3 : Except Unit NexsInteractResult) :
    set_cell s ref v sh (.error ()) (.error ()) o3 =
      ⟨.writeFailed, s, [.interactWrite, .initCall]⟩ := by
  obtain ⟨urlOpt, osess⟩ := s
  rcases osess with _ | sess0
  · exact absurd h (by simp)
  · have he : sess0 = sess := by simpa using h
    subst he
    simp [set_cell, hres, hsn]

theorem set_cell_retry_fail (s : ServerState) (sess : NexsSession)
    (h : s.nexsSession = some sess) (ref : String) (v : Value) (sh : Option String)
    (sn : String) (hres : resolvedSheet sh ref sess.views = some sn) (hsn : sn ≠ "")
    (init : NexsInitResult) :
    set_cell s ref v sh (.error ()) (.ok init) (.error ()) =
      ⟨.writeFailed,
        { s with
            nexsSession :=
              some ⟨sess.appUuid, init.sessionId, init.revision, init.views,
                    buildCellCache init.values, false⟩ },
        [.interactWrite, .initCall, .interactWrite]⟩ := by
  obtain ⟨urlOpt, osess⟩ := s
  rcases osess with _ | sess0
  · exact absurd h (by simp)
  · have he : sess0 = sess := by simpa using h
    subst he
    simp [set_cell, hres, hsn]

theorem set_cell_retry_ok (s : ServerState) (sess : NexsSession)
    (h : s.nexsSession = some sess) (ref : String) (v : Value) (sh : Option String)
    (sn : String) (hres : resolvedSheet sh ref sess.views = some sn) (hsn : sn ≠ "")
    (init : NexsInitResult) (r2 : NexsInteractResult) :
    set_cell s ref v sh (.error ()) (.ok init) (.ok r2) =
      ⟨.ok r2.revision (toChanged r2.values),
        { s with
            nexsSession :=
              some (applyDelta
                ⟨sess.appUuid, init.sessionId, init.revision, init.views,
                 buildCellCache init.values, false⟩ r2) },
        [.interactWrite, .initCall, .interactWrite]⟩ := by
  obtain ⟨urlOpt, osess⟩ := s
  rcases osess with _ | sess0
  · exact absurd h (by simp)
  · have he : sess0 = sess := by simpa using h
    subst he
    simp [set_cell, hres, hsn]

/-- C5: when `get_cell`'s synchronization poll fails, a non-live session is
re-initialised in place — new `sessionId`, `revision`, `views`, and a cache
rebuilt from the init snapshot — and the call continues to the cache
lookup; a live-bound session instead yields an error result and the whole
state, in particular `sessionId`, `revision` and `cellCache`, is unchanged. -/
theorem getCellPollFailure (s : ServerState) (sess : NexsSession)
    (h : s.nexsSession = some sess) (ref : String) (sh : Option String) :
    (∀ init : NexsInitResult, sess.fromBrowser = false →
      get_cell s ref sh (.error ()) (.ok init) =
        ⟨finishLookup
            { sess with
                sessionId := init.sessionId,
                revision := init.revision,
                views := init.views,
                cellCache := buildCellCache init.values }
            (resolvedSheet sh ref sess.views) (parseCellRef ref).2,
          { s with
              nexsSession :=
                some ({ sess with
                          sessionId := init.sessionId,
                          revision := init.revision,
                          views := init.views,
                          cellCache := buildCellCache init.values }) }⟩) ∧
    (∀ initO, sess.fromBrowser = true →
      get_cell s ref sh (.error ()) initO = ⟨.sessionExpired, s⟩) := by
  constructor
  · intro init hb
    exact get_cell_recover s sess h hb ref sh init
  · intro initO hb
    exact get_cell_expired s sess h hb ref sh initO

/-- Session used by the C5 witness: a backend-only session. -/
def c5wSess : NexsSession := ⟨"u0", "s0", 1, [], [], false⟩

/-- State used by the C5 witness. -/
def c5wState : ServerState := ⟨none, some c5wSess⟩

/-- Witness for `getCellPollFailure` at a concrete input. -/
theorem getCellPollFailureWitness :
    c5wState.nexsSession = some c5wSess ∧ c5wSess.fromBrowser = false ∧
    get_cell c5wState "A1" (some "S") (.error ()) (.ok ⟨"s1", 2, [], []⟩) =
      ⟨finishLookup
          { c5wSess with
              sessionId := "s1",
              revision := 2,
              views := [],
              cellCache := buildCellCache [] }
          (resolvedSheet (some "S") "A1" c5wSess.views) (parseCellRef "A1").2,
        { c5wState with
            nexsSession :=
              some ({ c5wSess with
                        sessionId := "s1",
                        revision := 2,
                        views := [],
                        cellCache := buildCellCache [] }) }⟩ :=
  ⟨rfl, rfl, (getCellPollFailure c5wState c5wSess rfl "A1" (some "S")).1 ⟨"s1", 2, [], []⟩ rfl⟩

/-- C10: when `get_cell`'s poll fails on a non-live session and the
recovery re-init also fails, `get_cell` proceeds with the existing stale
cache and, when the requested cell is cached, returns it as a successful
result with the state completely unchanged. -/
theorem getCellStaleFallback (s : ServerState) (sess : NexsSession)
    (h : s.nexsSession = some sess) (hb : sess.fromBrowser = false)
    (ref : String) (sh : Option String) (e : CacheEntry)
    (hlook : lookupInCache sess.cellCache (resolvedSheet sh ref sess.views)
        (parseCellRef ref).2 = some e) :
    get_cell s ref sh (.error ()) (.error ()) =
      ⟨.ok e.sheetName e.ci.addr e.ci.data e.ci.text e.ci.datatype, s⟩ := by
  rw [get_cell_stale s sess h hb ref sh]
  unfold finishLookup
  rw [hlook]

/-- Cached cell used by the C10 witness. -/
def c10ci : NexsCellInfo := ⟨"A1", .num 7, .numeric, "7", none⟩

/-- Session used by the C10 witness: stale cache holding `S!A1`. -/
def c10sess : NexsSession := ⟨"u0", "s0", 1, [], [("S!A1", ⟨"S", c10ci⟩)], false⟩

/-- State used by the C10 witness. -/
def c10state : ServerState := ⟨none, some c10sess⟩

/-- Witness for `getCellStaleFallback` at a concrete input. -/
theorem getCellStaleFallbackWitness :
    c10state.nexsSession = some c10sess ∧ c10sess.fromBrowser = false ∧
    lookupInCache c10sess.cellCache (resolvedSheet (some "S") "A1" c10sess.views)
        (parseCellRef "A1").2 = some ⟨"S", c10ci⟩ ∧
    get_cell c10state "A1" (some "S") (.error ()) (.error ()) =
      ⟨.ok "S" "A1" (.num 7) "7" .numeric, c10state⟩ :=
  ⟨rfl, rfl, by decide,
    getCellStaleFallback c10state c10sess rfl rfl "A1" (some "S") ⟨"S", c10ci⟩ (by decide)⟩

/-- C4 (amended): installing a full init snapshot is not always
frame-preserving.  The re-init recovery path of `get_cell` (and likewise
`set_cell`) rebuilds the cache from the snapshot alone — previously cached
keys absent from it are discarded.  Only the browser-merge path
(`set_nexs_session`) and the render backfill path preserve keys absent
from the incoming values, with their previous entries. -/
theorem snapshotInstallBehavior (s : ServerState) (sess : NexsSession)
    (h : s.nexsSession = some sess) :
    (∀ ref sh init, sess.fromBrowser = false →
      (get_cell s ref sh (.error ()) (.ok init)).state.nexsSession =
        some ({ sess with
                  sessionId := init.sessionId,
                  revision := init.revision,
                  views := init.views,
                  cellCache := buildCellCache init.values })) ∧
    (∀ sid rev vals vws k, sess.appUuid ≠ "" → lastBrowserWrite vals k = none →
      sessionCacheGet (set_nexs_session s sid rev vals vws) k = mapGet sess.cellCache k) ∧
    (∀ u init k, sess.fromBrowser = true → firstWrite init.values k = none →
      sessionCacheGet (renderInitComplete s u init) k = mapGet sess.cellCache k) := by
  refine ⟨?_, ?_, ?_⟩
  · intro ref sh init hb
    rw [get_cell_recover s sess h hb ref sh init]
  · intro sid rev vals vws k ha hnone
    rw [set_nexs_session_update s sess sid rev vals vws h ha]
    simp only [sessionCacheGet, Option.some_bind]
    rw [mapGet_mergeBrowser, hnone]
    rfl
  · intro u init k hbt hnone
    rw [renderInitComplete_live s sess u init h hbt]
    simp only [sessionCacheGet, Option.some_bind]
    rw [mapGet_backfillValues, hnone, fallback_none_right]

/-- Cached cell used by the C4 witness and counterexample. -/
def c4ci : NexsCellInfo := ⟨"A1", .num 9, .numeric, "9", none⟩

/-- A reachable state holding a non-live session whose cache has `S!A1`. -/
def c4stale : ServerState :=
  renderInitComplete ⟨none, none⟩ "u0" ⟨"s0", 1, [], [("S", c4ci)]⟩

/-- C4 (counterexample): the claim fails on `get_cell`'s recovery path — a
cached entry whose key is absent from the installed init snapshot is
removed, not retained with its previous value. -/
theorem snapshotFrameCounterexample :
    sessionCacheGet c4stale "S!A1" = some ⟨"S", c4ci⟩ ∧
    sessionCacheGet
        (get_cell c4stale "A1" (some "S") (.error ()) (.ok ⟨"s1", 2, [], []⟩)).state
        "S!A1" = none := by decide

/-- Session used by the C4 witness. -/
def c4wSess : NexsSession := ⟨"u0", "s0", 1, [], [("S!A1", ⟨"S", c4ci⟩)], true⟩

/-- State used by the C4 witness. -/
def c4wState : ServerState := ⟨none, some c4wSess⟩

/-- Witness for `snapshotInstallBehavior` at a concrete input: the
browser-merge path preserves a cached key absent from the report. -/
theorem snapshotInstallBehaviorWitness :
    c4wState.nexsSession = some c4wSess ∧ c4wSess.appUuid ≠ "" ∧
    lastBrowserWrite [] "S!A1" = none ∧
    sessionCacheGet (set_nexs_session c4wState "sidB" 2 [] []) "S!A1" =
      mapGet c4wSess.cellCache "S!A1" :=
  ⟨rfl, by decide, rfl,
    (snapshotInstallBehavior c4wState c4wSess rfl).2.1 "sidB" 2 [] [] "S!A1"
      (by decide) rfl⟩

/-- C6: `set_cell` performs exactly one automatic recovery.  With a session
and a resolvable sheet: a successful first write issues exactly one
interact call and succeeds; if the first write fails and the re-init also
fails, the calls are one write and one init and the result is an error; if
the first write fails and the re-init succeeds, exactly one retry write is
issued (two writes, one init in total) and the result follows the retry.
In every case at most two interact writes and at most one init happen. -/
theorem setCellSingleRecovery (s : ServerState) (sess : NexsSession)
    (h : s.nexsSession = some sess) (ref : String) (v : Value) (sh : Option String)
    (sn : String) (hres : resolvedSheet sh ref sess.views = some sn) (hsn : sn ≠ "")
    (o1 : Except Unit NexsInteractResult) (o2 : Except Unit NexsInitResult)
    (o3 : Except Unit NexsInteractResult) :
    (set_cell s ref v sh o1 o2 o3).calls.count .interactWrite ≤ 2 ∧
    (set_cell s ref v sh o1 o2 o3).calls.count .initCall ≤ 1 ∧
    (∀ r, o1 = .ok r →
      (set_cell s ref v sh o1 o2 o3).calls = [.interactWrite] ∧
      (set_cell s ref v sh o1 o2 o3).result = .ok r.revision (toChanged r.values)) ∧
    (o1 = .error () → o2 = .error () →
      (set_cell s ref v sh o1 o2 o3).calls = [.interactWrite, .initCall] ∧
      (set_cell s ref v sh o1 o2 o3).result = .writeFailed) ∧
    (∀ init, o1 = .error () → o2 = .ok init →
      (set_cell s ref v sh o1 o2 o3).calls =
        [.interactWrite, .initCall, .interactWrite] ∧
      (o3 = .error () → (set_cell s ref v sh o1 o2 o3).result = .writeFailed) ∧
      (∀ r2, o3 = .ok r2 →
        (set_cell s ref v sh o1 o2 o3).result = .ok r2.revision (toChanged r2.values))) := by
  cases o1 with
  | ok r =>
    rw [set_cell_first_ok s sess h ref v sh sn hres hsn r o2 o3]
    refine ⟨by dsimp only; decide, by dsimp only; decide, ?_, ?_, ?_⟩
    · intro r2 hr2
      injection hr2 with he
      subst he
      exact ⟨rfl, rfl⟩
    · intro hbad
      simp at hbad
    · intro init hbad
      simp at hbad
  | error e1 =>
    cases e1
    cases o2 with
    | error e2 =>
      cases e2
      rw [set_cell_both_fail s sess h ref v sh sn hres hsn o3]
      refine ⟨by dsimp only; decide, by dsimp only; decide, ?_, ?_, ?_⟩
      · intro r2 hbad
        simp at hbad
      · intro _ _
        exact ⟨rfl, rfl⟩
      · intro init _ hbad
        simp at hbad
    | ok init =>
      cases o3 with
      | error e3 =>
        cases e3
        rw [set_cell_retry_fail s sess h ref v sh sn hres hsn init]
        refine ⟨by dsimp only; decide, by dsimp only; decide, ?_, ?_, ?_⟩
        · intro r2 hbad
          simp at hbad
        · intro _ hbad
          simp at hbad
        · intro init2 _ hinit
          injection hinit with he
          subst he
          refine ⟨rfl, fun _ => rfl, ?_⟩
          intro r2 hbad
          simp at hbad
      | ok r2 =>
        rw [set_cell_retry_ok s sess h ref v sh sn hres hsn init r2]
        refine ⟨by dsimp only; decide, by dsimp only; decide, ?_, ?_, ?_⟩
        · intro r3 hbad
          simp at hbad
        · intro _ hbad
          simp at hbad
        · intro init2 _ hinit
          injection hinit with he
          subst he
          refine ⟨rfl, ?_, ?_⟩
          · intro hbad
            simp at hbad
          · intro r3 hr3
            injection hr3 with he2
            subst he2
            exact rfl

/-- Session used by the C6 witness. -/
def c6wSess : NexsSession := ⟨"u0", "s0", 1, [], [], false⟩

/-- State used by the C6 witness. -/
def c6wState : ServerState := ⟨none, some c6wSess⟩

/-- Witness for `setCellSingleRecovery` at a concrete input: first write
fails, the single recovery re-init succeeds, the single retry succeeds. -/
theorem setCellSingleRecoveryWitness :
    c6wState.nexsSession = some c6wSess ∧
    resolvedSheet (some "S") "A1" c6wSess.views = some "S" ∧ ("S" : String) ≠ "" ∧
    (set_cell c6wState "A1" (.num 5) (some "S") (.error ()) (.ok ⟨"s1", 2, [], []⟩)
        (.ok ⟨3, []⟩)).calls = [.interactWrite, .initCall, .interactWrite] ∧
    (set_cell c6wState "A1" (.num 5) (some "S") (.error ()) (.ok ⟨"s1", 2, [], []⟩)
        (.ok ⟨3, []⟩)).result = .ok 3 (toChanged []) := by
  have h := setCellSingleRecovery c6wState c6wSess rfl "A1" (.num 5) (some "S") "S" rfl
    (by decide) (.error ()) (.ok ⟨"s1", 2, [], []⟩) (.ok ⟨3, []⟩)
  have h5 := h.2.2.2.2 ⟨"s1", 2, [], []⟩ rfl rfl
  exact ⟨rfl, rfl, by decide, h5.1, h5.2.2 ⟨3, []⟩ rfl⟩

theorem resolvedSheet_explicit (sn : String) (ref : String) (views : List NexsView) :
    resolvedSheet (some sn) ref views = some sn := rfl

theorem finishLookup_explicit (sess : NexsSession) (sn : String) (addr : String)
    (hsn : sn ≠ "") :
    finishLookup sess (some sn) addr =
      match mapGet sess.cellCache (sn ++ "!" ++ upperStr addr) with
      | none => .cellNotFound (knownSheets sess.cellCache)
      | some e => .ok e.sheetName e.ci.addr e.ci.data e.ci.text e.ci.datatype := by
  unfold finishLookup lookupInCache
  dsimp only
  rw [if_neg hsn]

/-- C7 (amended): after a successful `set_cell` whose interact result lists
entry `e` (the last one) for the written key, an immediately following
successful `get_cell` for the same sheet and address — whose own zero-write
poll returns a delta no older than the write's revision — returns `e`'s
value whenever that delta carries no entry for the key; if the delta does
carry one, that newer entry is returned instead.  In neither case is the
pre-write cached value read. -/
theorem roundTripValue (s : ServerState) (sess : NexsSession)
    (h : s.nexsSession = some sess) (ref : String) (sn : String) (hsn : sn ≠ "")
    (v : Value) (WR D : NexsInteractResult) (o2 : Except Unit NexsInitResult)
    (o3 : Except Unit NexsInteractResult) (initO : Except Unit NexsInitResult)
    (e : CacheEntry)
    (hrev : WR.revision ≤ D.revision)
    (hw : lastWrite WR.values (sn ++ "!" ++ upperStr (parseCellRef ref).2) = some e) :
    (lastWrite D.values (sn ++ "!" ++ upperStr (parseCellRef ref).2) = none →
      (get_cell (set_cell s ref v (some sn) (.ok WR) o2 o3).state ref (some sn)
          (.ok D) initO).result =
        .ok e.sheetName e.ci.addr e.ci.data e.ci.text e.ci.datatype) ∧
    (∀ e2, lastWrite D.values (sn ++ "!" ++ upperStr (parseCellRef ref).2) = some e2 →
      (get_cell (set_cell s ref v (some sn) (.ok WR) o2 o3).state ref (some sn)
          (.ok D) initO).result =
        .ok e2.sheetName e2.ci.addr e2.ci.data e2.ci.text e2.ci.datatype) := by
  have hstate : (set_cell s ref v (some sn) (.ok WR) o2 o3).state =
      { s with nexsSession := some (applyDelta sess WR) } := by
    rw [set_cell_first_ok s sess h ref v (some sn) sn rfl hsn WR o2 o3]
  have hread := get_cell_sync_ok { s with nexsSession := some (applyDelta sess WR) }
    (applyDelta sess WR) rfl ref (some sn) D initO
  have hcache : (applyDelta (applyDelta sess WR) D).cellCache =
      applyValues (applyValues sess.cellCache WR.values) D.values := rfl
  have hresult : (get_cell (set_cell s ref v (some sn) (.ok WR) o2 o3).state ref (some sn)
      (.ok D) initO).result =
      finishLookup (applyDelta (applyDelta sess WR) D) (some sn) (parseCellRef ref).2 := by
    rw [hstate, hread, resolvedSheet_explicit]
  constructor
  · intro hD
    rw [hresult, finishLookup_explicit _ _ _ hsn, hcache,
        mapGet_applyValues, mapGet_applyValues, hw, hD]
    rfl
  · intro e2 hD2
    rw [hresult, finishLookup_explicit _ _ _ hsn, hcache,
        mapGet_applyValues, mapGet_applyValues, hw, hD2]
    rfl

/-- The written cell of the C7 witness. -/
def c7wCi : NexsCellInfo := ⟨"A1", .num 5, .numeric, "5", none⟩

/-- Session used by the C7 witness. -/
def c7wSess : NexsSession := ⟨"u0", "s0", 1, [], [], false⟩

/-- State used by the C7 witness. -/
def c7wState : ServerState := ⟨none, some c7wSess⟩

/-- Write result of the C7 witness: the interact call reports the written
cell at revision 10. -/
def c7wWR : NexsInteractResult := ⟨10, [("S", c7wCi)]⟩

/-- Poll delta of the C7 witness: newer revision, no entry for the key. -/
def c7wD : NexsInteractResult := ⟨11, []⟩

/-- Witness for `roundTripValue` at a concrete input. -/
theorem roundTripValueWitness :
    c7wState.nexsSession = some c7wSess ∧ ("S" : String) ≠ "" ∧
    c7wWR.revision ≤ c7wD.revision ∧
    lastWrite c7wWR.values ("S" ++ "!" ++ upperStr (parseCellRef "A1").2) =
      some ⟨"S", c7wCi⟩ ∧
    lastWrite c7wD.values ("S" ++ "!" ++ upperStr (parseCellRef "A1").2) = none ∧
    (get_cell (set_cell c7wState "A1" (.num 5) (some "S") (.ok c7wWR) (.error ())
          (.error ())).state "A1" (some "S") (.ok c7wD) (.error ())).result =
      .ok "S" "A1" (.num 5) "5" .numeric := by
  have h := roundTripValue c7wState c7wSess rfl "A1" "S" (by decide) (.num 5) c7wWR c7wD
    (.error ()) (.error ()) (.error ()) ⟨"S", c7wCi⟩ (by decide) (by decide)
  exact ⟨rfl, by decide, by decide, by decide, rfl, h.1 rfl⟩

/-- Session used by the C7 counterexample. -/
def c7sess : NexsSession := ⟨"u0", "s0", 1, [], [], false⟩

/-- State used by the C7 counterexample. -/
def c7state : ServerState := ⟨none, some c7sess⟩

/-- Write result of the C7 counterexample: lists `A1` with value 5. -/
def c7wr : NexsInteractResult := ⟨10, [("S", ⟨"A1", .num 5, .numeric, "5", none⟩)]⟩

/-- Poll delta of the C7 counterexample: same revision as the write but a
different value for the same cell. -/
def c7poll : NexsInteractResult := ⟨10, [("S", ⟨"A1", .num 7, .numeric, "7", none⟩)]⟩

/-- State after the C7 counterexample write. -/
def c7afterWrite : ServerState :=
  (set_cell c7state "A1" (.num 5) (some "S") (.ok c7wr) (.error ()) (.error ())).state

/-- C7 (counterexample): the claim fails as stated — the write succeeds and
its changed cells list `A1 = 5`, the immediately following `get_cell`'s
poll returns a delta no older than the write's revision, yet the read
returns the delta's value 7, not the changed-cells value 5. -/
theorem roundTripCounterexample :
    (set_cell c7state "A1" (.num 5) (some "S") (.ok c7wr) (.error ()) (.error ())).result =
      .ok 10 [⟨"S", "A1", .num 5, "5", .numeric⟩] ∧
    c7wr.revision ≤ c7poll.revision ∧
    (get_cell c7afterWrite "A1" (some "S") (.ok c7poll) (.error ())).result =
      .ok "S" "A1" (.num 7) "7" .numeric ∧
    Value.num 7 ≠ Value.num 5 := by decide

/-! Sheet-name resolution: spec-side formulation and equivalence. -/

theorem find?_eq_head_filter {α : Type} (p : α → Bool) (l : List α) :
    l.find? p = (l.filter p).head? := by
  induction l with
  | nil => rfl
  | cons a rest ih =>
    by_cases ha : p a = true
    · rw [List.find?_cons_of_pos rest ha, List.filter_cons_of_pos ha]
      rfl
    · rw [List.find?_cons_of_neg rest ha, List.filter_cons_of_neg (by simpa using ha), ih]

theorem splitAtFirstBang_spec (cs : List Char) :
    (('!' ∉ cs) → splitAtFirstBang cs = none) ∧
    ('!' ∈ cs → ∃ b, splitAtFirstBang cs = some (cs.takeWhile (fun c => c ≠ '!'), b)) := by
  induction cs with
  | nil =>
    exact ⟨fun _ => rfl, fun h => absurd h (List.not_mem_nil _)⟩
  | cons c rest ih =>
    by_cases hc : c = '!'
    · subst hc
      constructor
      · intro hn
        exact absurd (List.mem_cons_self _ _) hn
      · intro _
        refine ⟨rest, ?_⟩
        simp [splitAtFirstBang, List.takeWhile_cons]
    · have hsplit : splitAtFirstBang (c :: rest) =
          (splitAtFirstBang rest).map (fun p => (c :: p.1, p.2)) := by
        simp [splitAtFirstBang, hc]
      have htake : (c :: rest).takeWhile (fun x => x ≠ '!') =
          c :: rest.takeWhile (fun x => x ≠ '!') := by
        simp [List.takeWhile_cons, hc]
      constructor
      · intro hn
        have hnr : '!' ∉ rest := fun hr => hn (List.mem_cons_of_mem c hr)
        rw [hsplit, ih.1 hnr]
        rfl
      · intro hm
        have hmr : '!' ∈ rest := by
          rcases List.mem_cons.mp hm with he | hr
        
          · exact absurd he.symm hc
          · exact hr
        obtain ⟨b, hb⟩ := ih.2 hmr
        refine ⟨b, ?_⟩
        rw [hsplit, hb, htake]
        rfl

theorem parseCellRef_fst (r : String) :
    (parseCellRef r).1 =
      if '!' ∈ r.toList
      then some (String.mk (r.toList.takeWhile (fun c => c ≠ '!')))
      else none := by
  by_cases hb : '!' ∈ r.toList
  · obtain ⟨b, hsp⟩ := (splitAtFirstBang_spec r.toList).2 hb
    rw [if_pos hb]
    unfold parseCellRef
    rw [hsp]
  · rw [if_neg hb]
    unfold parseCellRef
    rw [(splitAtFirstBang_spec r.toList).1 hb]

/-- The sheet-resolution precedence as the specification words it: the
explicit `sheet` argument if provided, else the text before the first `!`
of the cell reference, else the `sheetName` of the first view whose
`isInvisible` flag is false, else none. -/
def sheetNameSpec (explicitSheet : Option String) (cellRef : String)
    (views : List NexsView) : Option String :=
  match explicitSheet with
  | some s => some s
  | none =>
    if '!' ∈ cellRef.toList then
      some (String.mk (cellRef.toList.takeWhile (fun c => c ≠ '!')))
    else
      match (views.filter (fun v => v.isInvisible == false)).head? with
      | some v => some v.sheetName
      | none => none

/-- C9: the sheet-name resolution used by both `get_cell` and `set_cell`
(the shared `resolvedSheet` chain) follows exactly the claimed precedence:
explicit argument, else the prefix before the first `!` of the reference,
else the first visible view's sheet name, else unresolved. -/
theorem sheetResolutionPrecedence (e : Option String) (r : String) (vs : List NexsView) :
    resolvedSheet e r vs = sheetNameSpec e r vs := by
  cases e with
  | some s => rfl
  | none =>
    unfold resolvedSheet sheetNameSpec
    rw [parseCellRef_fst]
    by_cases hb : '!' ∈ r.toList
    · rw [if_pos hb, if_pos hb]
    · rw [if_neg hb, if_neg hb]
      have hpred : (fun v : NexsView => !v.isInvisible) =
          (fun v : NexsView => v.isInvisible == false) := by
        funext v
        cases hv : v.isInvisible <;> rfl
      rw [hpred, find?_eq_head_filter]
      cases hh : (vs.filter (fun v => v.isInvisible == false)).head? <;> rfl
